import Mathlib

/-!
Shallow embedding of the microps core under verification: the protocol
dispatcher of src/net.c and the ARP subsystem of src/arp.c.

Modelling conventions:
* machine integers are `Nat` (no field here can overflow on the modelled paths);
  C return codes are `Int`;
* byte buffers, hardware addresses and protocol addresses are `List Nat`
  (one element per byte); `ip_addr_t` is represented by its four bytes, so the
  `ntoh32`-equality test of `arp_cache_select` is plain list equality;
* the driver callback `dev->ops->transmit` is modelled by recording each
  invocation in a list of `DriverCall`s and taking its return value as a
  parameter;
* `struct timeval` keeps its two fields; `timercmp(a, b, >)` compares seconds
  first, then microseconds.
-/

namespace Microps

/-! Constants. Values below marked "header" come from net.h / ether.h / ip.h /
arp.h, which are not under src/; the values are the standard microps / IANA
ones and only their identities matter to the theorems. -/

/-- header constant: length of an Ethernet hardware address. -/
def ETHER_ADDR_LEN : Nat := 6

/-- header constant: length of an IPv4 protocol address. -/
def IP_ADDR_LEN : Nat := 4

/-- header constant: Ethernet type of IP. -/
def ETHER_TYPE_IP : Nat := 0x0800

/-- header constant: Ethernet type of ARP. -/
def ETHER_TYPE_ARP : Nat := 0x0806

/-- header constant: device type tag for Ethernet devices. -/
def NET_DEVICE_TYPE_ETHERNET : Nat := 2

/-- header constant: interface family tag for IP. -/
def NET_IFACE_FAMILY_IP : Nat := 1

/-- src/arp.c: hardware type for Ethernet. -/
def ARP_HRD_ETHER : Nat := 1

/-- src/arp.c: protocol type for IP (same value as the Ethernet type). -/
def ARP_PRO_IP : Nat := ETHER_TYPE_IP

/-- src/arp.c: ARP opcode REQUEST. -/
def ARP_OP_REQUEST : Nat := 1

/-- src/arp.c: ARP opcode REPLY. -/
def ARP_OP_REPLY : Nat := 2

/-- src/arp.c: number of slots in the ARP cache array. -/
def ARP_CACHE_SIZE : Nat := 32

/-- src/arp.c: cache entry state FREE. -/
def ARP_CACHE_STATE_FREE : Nat := 0

/-- src/arp.c: cache entry state INCOMPLETE. -/
def ARP_CACHE_STATE_INCOMPLETE : Nat := 1

/-- src/arp.c: cache entry state RESOLVED. -/
def ARP_CACHE_STATE_RESOLVED : Nat := 2

/-- header constant (arp.h, not under src/): resolve failure code. -/
def ARP_RESOLVE_ERROR : Int := -1

/-- header constant (arp.h, not under src/): resolve success code. -/
def ARP_RESOLVE_FOUND : Int := 1

/-! Timestamps. -/

/-- struct timeval: seconds and microseconds. -/
structure Timeval where
  sec : Nat
  usec : Nat
deriving DecidableEq

/-- timercmp(&a, &b, >) from sys/time.h: seconds compared first, then
microseconds. -/
def timercmpGt (a b : Timeval) : Bool :=
  if a.sec = b.sec then decide (b.usec < a.usec) else decide (b.sec < a.sec)

/-- timerclear(&t): both fields zeroed. -/
def timerclearVal : Timeval := ⟨0, 0⟩

/-! ARP cache data model (src/arp.c). -/

/-- struct arp_cache: one slot of the cache array. -/
structure ArpCacheEntry where
  state : Nat
  pa : List Nat
  ha : List Nat
  timestamp : Timeval
deriving DecidableEq

/-- The contents arp_cache_delete leaves behind: state FREE, fields zeroed,
timestamp cleared. -/
def freeEntry : ArpCacheEntry :=
  ⟨ARP_CACHE_STATE_FREE, List.replicate IP_ADDR_LEN 0, List.replicate ETHER_ADDR_LEN 0,
    timerclearVal⟩

/-- arp_cache_delete from src/arp.c, acting on slot `i` of the cache array. -/
def arp_cache_delete (cs : List ArpCacheEntry) (i : Nat) : List ArpCacheEntry :=
  cs.set i freeEntry

/-- Index of the first element satisfying `p`: the linear scans of src/arp.c. -/
def scanIdx (p : ArpCacheEntry → Bool) : List ArpCacheEntry → Option Nat
  | [] => none
  | c :: rest => if p c then some 0 else (scanIdx p rest).map (fun j => j + 1)

/-- The oldest-tracking accumulator loop of arp_cache_alloc: `best` is NULL or
the (index, timestamp) of the current oldest; an entry replaces it exactly when
timercmp(&oldest->timestamp, &entry->timestamp, >) holds. `i` is the index of
the first list element. -/
def oldestGo : List ArpCacheEntry → Nat → Option (Nat × Timeval) → Option Nat
  | [], _, best => best.map (fun b => b.1)
  | c :: rest, i, none => oldestGo rest (i + 1) (some (i, c.timestamp))
  | c :: rest, i, some (bi, bt) =>
      if timercmpGt bt c.timestamp then oldestGo rest (i + 1) (some (i, c.timestamp))
      else oldestGo rest (i + 1) (some (bi, bt))

/-- arp_cache_alloc from src/arp.c: return the first FREE slot; if none is FREE,
delete (arp_cache_delete) the slot with the oldest timestamp and return it.
In the C loop the FREE check precedes the oldest update and the loop returns at
the first FREE slot, so the oldest-tracking result is only consulted when no
slot is FREE; the two scans below are therefore equivalent to the single loop.
The result is the chosen index together with the possibly-modified cache;
`none` corresponds to the C code reaching `arp_cache_delete(oldest)` with
`oldest == NULL`, which only an empty cache array could produce. -/
def arp_cache_alloc (cs : List ArpCacheEntry) : Option (Nat × List ArpCacheEntry) :=
  match scanIdx (fun c => c.state == ARP_CACHE_STATE_FREE) cs with
  | some i => some (i, cs)
  | none =>
    match oldestGo cs 0 none with
    | none => none
    | some i => some (i, arp_cache_delete cs i)

/-- arp_cache_select from src/arp.c: the first entry that is not FREE and whose
protocol address equals `pa` (ntoh32 equality on `ip_addr_t` is equality of the
four address bytes). Returns the slot index, `none` for NULL. -/
def arp_cache_select (cs : List ArpCacheEntry) (pa : List Nat) : Option Nat :=
  scanIdx (fun c => c.state != ARP_CACHE_STATE_FREE && c.pa == pa) cs

/-- arp_cache_update from src/arp.c: select the entry for `pa`; if absent return
NULL (`none`) without modifying anything; otherwise set its state to RESOLVED
and its timestamp to `now` (the gettimeofday value). Note that the C function
never touches the entry's stored hardware address: the `ha` argument is unused. -/
def arp_cache_update (cs : List ArpCacheEntry) (pa _ha : List Nat) (now : Timeval) :
    Option (List ArpCacheEntry) :=
  match arp_cache_select cs pa with
  | none => none
  | some i =>
    match cs.get? i with
    | none => none
    | some c =>
        some (cs.set i { c with state := ARP_CACHE_STATE_RESOLVED, timestamp := now })

/-- arp_cache_insert from src/arp.c: allocate a slot with arp_cache_alloc (NULL
propagates as `none`), then fill it: state RESOLVED, protocol address `pa`,
hardware address `ha` (ETHER_ADDR_LEN bytes), timestamp `now`. -/
def arp_cache_insert (cs : List ArpCacheEntry) (pa ha : List Nat) (now : Timeval) :
    Option (List ArpCacheEntry) :=
  match arp_cache_alloc cs with
  | none => none
  | some (i, cs') => some (cs'.set i ⟨ARP_CACHE_STATE_RESOLVED, pa, ha, now⟩)

/-! Devices and interfaces (src/net.c data model, fields used by these claims). -/

/-- struct net_device: the fields the verified code reads. `up` models
NET_DEVICE_IS_UP (the NET_DEVICE_FLAG_UP bit). -/
structure NetDevice where
  type : Nat
  addr : List Nat
  up : Bool
  mtu : Nat
deriving DecidableEq

/-- One invocation of a driver transmit callback `dev->ops->transmit(dev, type,
data, len, dst)`. -/
structure DriverCall where
  dev : NetDevice
  type : Nat
  data : List Nat
  len : Nat
  dst : List Nat
deriving DecidableEq

/-- net_device_output from src/net.c. Returns the C return value together with
the driver transmit invocations performed (none on the failure paths, exactly
one otherwise); `driverResult` is the value the driver callback returns. -/
def net_device_output (dev : NetDevice) (type : Nat) (data : List Nat) (len : Nat)
    (dst : List Nat) (driverResult : Int) : Int × List DriverCall :=
  if !dev.up then (-1, [])
  else if dev.mtu < len then (-1, [])
  else if driverResult = -1 then (-1, [⟨dev, type, data, len, dst⟩])
  else (0, [⟨dev, type, data, len, dst⟩])

/-- struct net_iface together with the ip_iface unicast address the ARP code
reads through the cast `(struct ip_iface *)iface`. -/
structure NetIface where
  dev : NetDevice
  family : Nat
  unicast : List Nat
deriving DecidableEq

/-- arp_resolve from src/arp.c. Besides the C return value, the second component
is the hardware address written through the out-parameter `ha` (`none` when the
function returns without writing), and the third is the list of driver transmit
calls made; arp_resolve contains no transmit call, so that list is always empty. -/
def arp_resolve (iface : NetIface) (pa : List Nat) (caches : List ArpCacheEntry) :
    Int × Option (List Nat) × List DriverCall :=
  if iface.dev.type ≠ NET_DEVICE_TYPE_ETHERNET then (ARP_RESOLVE_ERROR, none, [])
  else if iface.family ≠ NET_IFACE_FAMILY_IP then (ARP_RESOLVE_ERROR, none, [])
  else
    match arp_cache_select caches pa with
    | none => (ARP_RESOLVE_ERROR, none, [])
    | some i =>
      match caches.get? i with
      | none => (ARP_RESOLVE_ERROR, none, [])
      | some c => (ARP_RESOLVE_FOUND, some c.ha, [])

/-! ARP wire format (struct arp_ether_ip, 28 bytes, big-endian integer fields). -/

/-- hton16: the two big-endian bytes of a 16-bit value. -/
def hton16 (x : Nat) : List Nat := [x / 256 % 256, x % 256]

/-- ntoh16 of the 16-bit field starting at byte offset `i`. -/
def ntoh16At (data : List Nat) (i : Nat) : Nat := 256 * data.getD i 0 + data.getD (i + 1) 0

/-- The `n` bytes starting at offset `off`. -/
def fieldAt (data : List Nat) (off n : Nat) : List Nat := (data.drop off).take n

/-- hdr.hrd of a received ARP message. -/
def arpHrd (d : List Nat) : Nat := ntoh16At d 0

/-- hdr.pro of a received ARP message. -/
def arpPro (d : List Nat) : Nat := ntoh16At d 2

/-- hdr.hln of a received ARP message. -/
def arpHln (d : List Nat) : Nat := d.getD 4 0

/-- hdr.pln of a received ARP message. -/
def arpPln (d : List Nat) : Nat := d.getD 5 0

/-- hdr.op of a received ARP message. -/
def arpOp (d : List Nat) : Nat := ntoh16At d 6

/-- sha field (6 bytes at offset 8) of a received ARP message. -/
def arpSha (d : List Nat) : List Nat := fieldAt d 8 6

/-- spa field (4 bytes at offset 14) of a received ARP message. -/
def arpSpa (d : List Nat) : List Nat := fieldAt d 14 4

/-- tha field (6 bytes at offset 18) of a received ARP message. -/
def arpTha (d : List Nat) : List Nat := fieldAt d 18 6

/-- tpa field (4 bytes at offset 24) of a received ARP message. -/
def arpTpa (d : List Nat) : List Nat := fieldAt d 24 4

/-- Byte layout of a struct arp_ether_ip built field by field (offsets
0/2/4/5/6/8/14/18/24, no padding, total 28 bytes when the addresses have
their nominal lengths). -/
def serializeArp (hrd pro hln pln op : Nat) (sha spa tha tpa : List Nat) : List Nat :=
  hton16 hrd ++ hton16 pro ++ [hln, pln] ++ hton16 op ++ sha ++ spa ++ tha ++ tpa

/-- arp_reply from src/arp.c: build the reply message — hrd/pro/hln/pln fixed,
op REPLY, sha from the interface device's hardware address, spa from the
interface's unicast address, tha/tpa from the arguments — and hand it to
net_device_output with type ETHER_TYPE_ARP and len = sizeof(struct
arp_ether_ip) = 28. -/
def arp_reply (iface : NetIface) (tha : List Nat) (tpa : List Nat) (dst : List Nat)
    (driverResult : Int) : Int × List DriverCall :=
  net_device_output iface.dev ETHER_TYPE_ARP
    (serializeArp ARP_HRD_ETHER ARP_PRO_IP ETHER_ADDR_LEN IP_ADDR_LEN ARP_OP_REPLY
      iface.dev.addr iface.unicast tha tpa)
    28 dst driverResult

/-- arp_input from src/arp.c. `iface` is the result of
net_device_get_iface(dev, NET_IFACE_FAMILY_IP) — that helper lives outside
src/, so the looked-up interface is passed in directly; `now` is the
gettimeofday value; `driverResult` the driver transmit return value. The
result is the cache after the call together with the driver transmit calls
made. Length checks use `data.length` for the C `len` argument, and
sizeof(struct arp_ether_ip) = 28. -/
def arp_input (caches : List ArpCacheEntry) (data : List Nat) (iface : Option NetIface)
    (now : Timeval) (driverResult : Int) : List ArpCacheEntry × List DriverCall :=
  if data.length < 28 then (caches, [])
  else if ¬(arpHrd data = ARP_HRD_ETHER ∧ arpHln data = ETHER_ADDR_LEN) then (caches, [])
  else if ¬(arpPro data = ARP_PRO_IP ∧ arpPln data = IP_ADDR_LEN) then (caches, [])
  else
    let spa := arpSpa data
    let tpa := arpTpa data
    let sha := arpSha data
    let updated := arp_cache_update caches spa sha now
    let merge := updated.isSome
    let caches1 := updated.getD caches
    match iface with
    | none => (caches1, [])
    | some ifc =>
      if ifc.unicast = tpa then
        let caches2 :=
          if merge then caches1 else (arp_cache_insert caches1 spa sha now).getD caches1
        if arpOp data = ARP_OP_REQUEST then
          (caches2, (arp_reply ifc sha spa sha driverResult).2)
        else (caches2, [])
      else (caches1, [])

/-- Slot `i` holds the strictly smallest timestamp of the cache, the first slot
in scan order winning ties: no slot's timestamp is strictly smaller than slot
i's, and every slot before i carries a strictly greater timestamp. -/
def isFirstOldest (cs : List ArpCacheEntry) (i : Nat) : Prop :=
  ∃ c, cs.get? i = some c ∧
    (∀ j c', cs.get? j = some c' → timercmpGt c.timestamp c'.timestamp = false) ∧
    (∀ j c', j < i → cs.get? j = some c' → timercmpGt c'.timestamp c.timestamp = true)

/-- Slot `f` is the first slot in scan order whose state is FREE. -/
def isFirstFree (cs : List ArpCacheEntry) (f : Nat) : Prop :=
  ∃ c, cs.get? f = some c ∧ c.state = ARP_CACHE_STATE_FREE ∧
    ∀ j c', j < f → cs.get? j = some c' → c'.state ≠ ARP_CACHE_STATE_FREE

/-! Protocol registry and dispatcher (src/net.c). The C code keeps a singly
linked list of heap-allocated struct net_protocol nodes; the model keeps the
nodes in an allocation store (`nodes`, one slot per allocated node, a pointer
being a store index) with the head pointer `protocols`. Pointer structure is
kept explicit because net_protocol_register (src/net.c:159) sets the new
node's next pointer with `proto->next = proto;` — to the node itself — so the
store can contain pointer cycles and every list traversal must be fuel-indexed:
a `none` result of a traversal means the C loop does not finish within the
given number of iterations (and, since the state is unchanged by iterating, it
never finishes). -/

/-- struct net_protocol_queue_entry: device reference, byte length, and the
copied frame bytes of one queued frame. -/
structure QueueEntry where
  dev : Nat
  len : Nat
  data : List Nat
deriving DecidableEq

/-- struct net_protocol: protocol type, next pointer, input queue (front of the
list pops first; queue_push appends at the back), and the handler, kept as an
opaque identity. -/
structure ProtoNode where
  type : Nat
  next : Option Nat
  queue : List QueueEntry
  handler : Nat
deriving DecidableEq

/-- The static state of src/net.c that the dispatcher claims concern: the node
store and the `protocols` head pointer. -/
structure NetState where
  nodes : List ProtoNode
  protocols : Option Nat
deriving DecidableEq

/-- The initial state: no protocol registered. -/
def NetState.empty : NetState := ⟨[], none⟩

/-- The scan `for (proto = protocols; proto; proto = proto->next) if (type ==
proto->type) ...` shared by net_protocol_register (duplicate check) and
net_input_handler (handler lookup). `some true` = a node of this type was
reached, `some false` = the loop fell off the NULL end, `none` = the loop did
not finish within `fuel` pointer steps. A dangling pointer cannot arise from
the modelled operations; that branch is given the arbitrary value
`some false`. -/
def findByType (nodes : List ProtoNode) (type : Nat) : Option Nat → Nat → Option Bool
  | none, _ => some false
  | some _, 0 => none
  | some p, fuel + 1 =>
    match nodes.get? p with
    | none => some false
    | some node =>
        if node.type = type then some true else findByType nodes type node.next fuel

/-- net_protocol_register from src/net.c: scan for a duplicate type (error -1,
state untouched, if found); otherwise allocate a fresh node with the given type
and handler and an empty queue, execute `proto->next = proto;` (src/net.c:159 —
the new node's next pointer is the node itself) and make it the list head.
Memory allocation is assumed to succeed. `none` = the duplicate scan never
finishes. -/
def net_protocol_register (st : NetState) (type handler : Nat) (fuel : Nat) :
    Option (Int × NetState) :=
  match findByType st.nodes type st.protocols fuel with
  | none => none
  | some true => some (-1, st)
  | some false =>
      let idx := st.nodes.length
      some (0, ⟨st.nodes ++ [⟨type, some idx, [], handler⟩], some idx⟩)

/-- Append a queue entry to the queue of the node at store index `p`
(queue_push). -/
def pushEntry (nodes : List ProtoNode) (p : Nat) (e : QueueEntry) : List ProtoNode :=
  match nodes.get? p with
  | none => nodes
  | some node => nodes.set p { node with queue := node.queue ++ [e] }

/-- net_input_handler from src/net.c: scan the protocol list for `type`; if the
scan falls off the NULL end, return 0 with nothing enqueued (unsupported
protocols are not an error); on a match, build an entry owning a copy of the
`len = data.length` frame bytes and the device reference, and push it — per
src/net.c:186 `queue_push(&protocols->queue, entry)` — onto the queue of the
node the head pointer designates, then return 0. Allocation is assumed to
succeed, and intr_raise_irq only signals. `none` = the scan never finishes. -/
def net_input_handler (st : NetState) (type : Nat) (data : List Nat) (dev : Nat)
    (fuel : Nat) : Option (Int × NetState) :=
  match findByType st.nodes type st.protocols fuel with
  | none => none
  | some false => some (0, st)
  | some true =>
    match st.protocols with
    | none => some (0, st)
    | some h => some (0, ⟨pushEntry st.nodes h ⟨dev, data.length, data⟩, st.protocols⟩)

/-- One handler invocation `proto->handler(entry->data, entry->len,
entry->dev)` performed by the dispatch loop. -/
structure HandlerCall where
  handler : Nat
  data : List Nat
  len : Nat
  dev : Nat
deriving DecidableEq

/-- The outer `for (proto = protocols; proto; proto = proto->next)` loop of
net_softirq_handler. The inner `while (1)` pops every entry of the visited
node's queue in FIFO order and hands each to the node's handler; it always
terminates and is modelled by mapping over the queue. The result is the list
of handler invocations made within `fuel` outer iterations, a flag that is
true exactly when the outer loop reached the NULL end (the C function
returned), and the resulting state. -/
def softirqLoop (st : NetState) : Option Nat → Nat → List HandlerCall × Bool × NetState
  | none, _ => ([], true, st)
  | some _, 0 => ([], false, st)
  | some p, fuel + 1 =>
    match st.nodes.get? p with
    | none => ([], true, st)
    | some node =>
        let calls := node.queue.map (fun e => ⟨node.handler, e.data, e.len, e.dev⟩)
        let st' : NetState := ⟨st.nodes.set p { node with queue := [] }, st.protocols⟩
        let rest := softirqLoop st' node.next fuel
        (calls ++ rest.1, rest.2.1, rest.2.2)

/-- net_softirq_handler from src/net.c, fuel-indexed as in `softirqLoop`. -/
def net_softirq_handler (st : NetState) (fuel : Nat) :
    List HandlerCall × Bool × NetState :=
  softirqLoop st st.protocols fuel

/-- The registry state holding exactly one registered protocol: one node of
type `T` with handler `h` and queue `q`, whose next pointer is the node itself
(what net_protocol_register creates, src/net.c:159), designated by the head
pointer. -/
def singleProto (T h : Nat) (q : List QueueEntry) : NetState :=
  ⟨[⟨T, some 0, q, h⟩], some 0⟩

/-- The queue entries that a sequence of (frame bytes, device) inputs creates. -/
def framesToEntries (frames : List (List Nat × Nat)) : List QueueEntry :=
  frames.map (fun fd => ⟨fd.2, fd.1.length, fd.1⟩)

/-- Feed a sequence of (frame bytes, device) pairs to net_input_handler,
requiring every call to return 0 (and to terminate). -/
def pushFrames (type fuel : Nat) : NetState → List (List Nat × Nat) → Option NetState
  | st, [] => some st
  | st, (d, dv) :: rest =>
    match net_input_handler st type d dv fuel with
    | some (ret, st') => if ret = 0 then pushFrames type fuel st' rest else none
    | none => none

/-! Helper lemmas. -/

theorem timercmpGt_irrefl (a : Timeval) : timercmpGt a a = false := by
  simp [timercmpGt]

theorem timercmpGt_asymm {a b : Timeval} (h : timercmpGt a b = true) :
    timercmpGt b a = false := by
  unfold timercmpGt at *
  split at h <;> split <;> simp_all <;> omega

theorem timercmpGt_trans {a b c : Timeval} (h1 : timercmpGt a b = true)
    (h2 : timercmpGt b c = true) : timercmpGt a c = true := by
  unfold timercmpGt at *
  split at h1 <;> split at h2 <;> split <;> simp_all <;> omega

theorem timercmpGt_of_not_gt_of_gt {a b c : Timeval} (h1 : timercmpGt a b = false)
    (h2 : timercmpGt a c = true) : timercmpGt b c = true := by
  unfold timercmpGt at *
  split at h1 <;> split at h2 <;> split <;> simp_all <;> omega

theorem timercmpGt_false_of_gt_of_not_gt {a b c : Timeval} (h1 : timercmpGt a b = true)
    (h2 : timercmpGt a c = false) : timercmpGt b c = false := by
  unfold timercmpGt at *
  split at h1 <;> split at h2 <;> split <;> simp_all <;> omega

theorem scanIdx_eq_none {p : ArpCacheEntry → Bool} {cs : List ArpCacheEntry}
    (h : ∀ c ∈ cs, p c = false) : scanIdx p cs = none := by
  induction cs with
  | nil => rfl
  | cons c rest ih =>
      have hc := h c (List.mem_cons_self c rest)
      simp [scanIdx, hc, ih fun x hx => h x (List.mem_cons_of_mem c hx)]

theorem scanIdx_isSome {p : ArpCacheEntry → Bool} {cs : List ArpCacheEntry}
    (h : ∃ c ∈ cs, p c = true) : (scanIdx p cs).isSome := by
  induction cs with
  | nil => simp at h
  | cons c rest ih =>
      by_cases hc : p c = true
      · simp [scanIdx, hc]
      · obtain ⟨x, hx, hpx⟩ := h
        rcases List.mem_cons.mp hx with rfl | hx'
        · exact absurd hpx hc
        · have := ih ⟨x, hx', hpx⟩
          simp [scanIdx, hc]
          cases hs : scanIdx p rest with
          | none => rw [hs] at this; simp at this
          | some j => simp

theorem scanIdx_spec {p : ArpCacheEntry → Bool} {cs : List ArpCacheEntry} {i : Nat}
    (h : scanIdx p cs = some i) :
    ∃ c, cs.get? i = some c ∧ p c = true ∧
      ∀ j c', j < i → cs.get? j = some c' → p c' = false := by
  induction cs generalizing i with
  | nil => simp [scanIdx] at h
  | cons c rest ih =>
      by_cases hc : p c = true
      · simp [scanIdx, hc] at h
        subst h
        exact ⟨c, rfl, hc, fun j c' hj _ => absurd hj (Nat.not_lt_zero j)⟩
      · simp [scanIdx, hc] at h
        obtain ⟨j, hj, rfl⟩ := h
        obtain ⟨c', hc', hpc', hmin⟩ := ih hj
        refine ⟨c', by simpa using hc', hpc', ?_⟩
        intro k ck hk hck
        cases k with
        | zero =>
            simp at hck
            subst hck
            simpa using hc
        | succ k' =>
            exact hmin k' ck (Nat.lt_of_succ_lt_succ hk) (by simpa using hck)

theorem oldestGo_isSome (cs : List ArpCacheEntry) :
    ∀ (k : Nat) (b : Nat × Timeval), (oldestGo cs k (some b)).isSome := by
  induction cs with
  | nil => intro k b; simp [oldestGo]
  | cons c rest ih =>
      intro k b
      obtain ⟨bi, bt⟩ := b
      rw [oldestGo]
      split
      · exact ih (k + 1) (k, c.timestamp)
      · exact ih (k + 1) (bi, bt)

theorem oldestGo_acc_spec (cs : List ArpCacheEntry) :
    ∀ (k bi : Nat) (bt : Timeval) (r : Nat),
    oldestGo cs k (some (bi, bt)) = some r →
    (r = bi ∧ ∀ c ∈ cs, timercmpGt bt c.timestamp = false) ∨
    (∃ j c, cs.get? j = some c ∧ r = k + j ∧ timercmpGt bt c.timestamp = true ∧
      (∀ j' c', cs.get? j' = some c' → timercmpGt c.timestamp c'.timestamp = false) ∧
      (∀ j' c', j' < j → cs.get? j' = some c' →
        timercmpGt c'.timestamp c.timestamp = true)) := by
  induction cs with
  | nil =>
      intro k bi bt r h
      simp [oldestGo] at h
      exact Or.inl ⟨h.symm, by simp⟩
  | cons e rest ih =>
      intro k bi bt r h
      rw [oldestGo] at h
      by_cases hgt : timercmpGt bt e.timestamp = true
      · rw [if_pos hgt] at h
        rcases ih (k + 1) k e.timestamp r h with ⟨rfl, hall⟩ | ⟨j, c, hj, rfl, hbc, hmin, hfst⟩
        · refine Or.inr ⟨0, e, rfl, by omega, hgt, ?_, ?_⟩
          · intro j' c' hj'
            cases j' with
            | zero =>
                simp at hj'
                subst hj'
                exact timercmpGt_irrefl _
            | succ m =>
                exact hall c' (List.get?_mem (by simpa using hj'))
          · intro j' c' hj' _
            exact absurd hj' (Nat.not_lt_zero j')
        · refine Or.inr ⟨j + 1, c, by simpa using hj, by omega,
            timercmpGt_trans hgt hbc, ?_, ?_⟩
          · intro j' c' hj'
            cases j' with
            | zero =>
                simp at hj'
                subst hj'
                exact timercmpGt_asymm hbc
            | succ m =>
                exact hmin m c' (by simpa using hj')
          · intro j' c' hj' hj'some
            cases j' with
            | zero =>
                simp at hj'some
                subst hj'some
                exact hbc
            | succ m =>
                exact hfst m c' (Nat.lt_of_succ_lt_succ hj') (by simpa using hj'some)
      · rw [if_neg hgt] at h
        have hbtE : timercmpGt bt e.timestamp = false := by
          simpa using hgt
        rcases ih (k + 1) bi bt r h with ⟨rfl, hall⟩ | ⟨j, c, hj, rfl, hbc, hmin, hfst⟩
        · refine Or.inl ⟨rfl, ?_⟩
          intro c' hc'
          rcases List.mem_cons.mp hc' with rfl | hmem
          · exact hbtE
          · exact hall c' hmem
        · refine Or.inr ⟨j + 1, c, by simpa using hj, by omega, hbc, ?_, ?_⟩
          · intro j' c' hj'
            cases j' with
            | zero =>
                simp at hj'
                subst hj'
                exact timercmpGt_false_of_gt_of_not_gt hbc hbtE
            | succ m =>
                exact hmin m c' (by simpa using hj')
          · intro j' c' hj' hj'some
            cases j' with
            | zero =>
                simp at hj'some
                subst hj'some
                exact timercmpGt_of_not_gt_of_gt hbtE hbc
            | succ m =>
                exact hfst m c' (Nat.lt_of_succ_lt_succ hj') (by simpa using hj'some)

theorem oldestGo_firstOldest {cs : List ArpCacheEntry} {r : Nat} (hne : cs ≠ [])
    (h : oldestGo cs 0 none = some r) : isFirstOldest cs r := by
  cases cs with
  | nil => exact absurd rfl hne
  | cons e rest =>
      rw [oldestGo] at h
      rcases oldestGo_acc_spec rest 1 0 e.timestamp r h with
        ⟨rfl, hall⟩ | ⟨j, c, hj, rfl, hbc, hmin, hfst⟩
      · refine ⟨e, rfl, ?_, ?_⟩
        · intro j' c' hj'
          cases j' with
          | zero =>
              simp at hj'
              subst hj'
              exact timercmpGt_irrefl _
          | succ m =>
              exact hall c' (List.get?_mem (by simpa using hj'))
        · intro j' c' hj' _
          exact absurd hj' (Nat.not_lt_zero j')
      · refine ⟨c, ?_, ?_, ?_⟩
        · have : 1 + j = j + 1 := by omega
          rw [this]
          simpa using hj
        · intro j' c' hj'
          cases j' with
          | zero =>
              simp at hj'
              subst hj'
              exact timercmpGt_asymm hbc
          | succ m =>
              exact hmin m c' (by simpa using hj')
        · intro j' c' hj' hj'some
          cases j' with
          | zero =>
              simp at hj'some
              subst hj'some
              exact hbc
          | succ m =>
              refine hfst m c' ?_ (by simpa using hj'some)
              omega

/-! Claim theorems. -/

/-- Claim C8: net_device_output fails when the device is down, fails when `len`
exceeds the device's MTU, performs no driver transmit call in either failure
case, and otherwise invokes the driver's transmit callback exactly once with
the whole payload and returns that callback's success (0) or failure (-1). -/
theorem net_device_output_spec (dev : NetDevice) (type : Nat) (data : List Nat)
    (len : Nat) (dst : List Nat) (driverResult : Int) :
    (dev.up = false → net_device_output dev type data len dst driverResult = (-1, [])) ∧
    (dev.mtu < len → net_device_output dev type data len dst driverResult = (-1, [])) ∧
    (dev.up = true → len ≤ dev.mtu →
      net_device_output dev type data len dst driverResult
        = ((if driverResult = -1 then -1 else 0), [⟨dev, type, data, len, dst⟩])) := by
  refine ⟨fun hup => by simp [net_device_output, hup], fun hlen => ?_, fun hup hlen => ?_⟩
  · by_cases hup : dev.up <;> simp [net_device_output, hup, hlen]
  · have hnl : ¬ dev.mtu < len := Nat.not_lt.mpr hlen
    by_cases hd : driverResult = -1 <;> simp [net_device_output, hup, hnl, hd]

/-- Concrete instantiation of net_device_output_spec: a down device, a payload
one byte over the MTU, and a successful transmit. -/
theorem net_device_output_spec_witness :
    net_device_output ⟨2, [1], false, 100⟩ 5 [9] 1 [] 0 = (-1, []) ∧
    net_device_output ⟨2, [1], true, 100⟩ 5 (List.replicate 101 0) 101 [] 0 = (-1, []) ∧
    net_device_output ⟨2, [1], true, 100⟩ 5 [9] 1 [] 0
      = (0, [⟨⟨2, [1], true, 100⟩, 5, [9], 1, []⟩]) := by
  refine ⟨(net_device_output_spec ⟨2, [1], false, 100⟩ 5 [9] 1 [] 0).1 rfl,
    (net_device_output_spec ⟨2, [1], true, 100⟩ 5 (List.replicate 101 0) 101 [] 0).2.1
      (by decide), ?_⟩
  have h := (net_device_output_spec ⟨2, [1], true, 100⟩ 5 [9] 1 [] 0).2.2 rfl (by decide)
  simpa using h

/-- Claim C9: a second net_protocol_register call with an already-registered
type returns -1 and leaves the state — the first registration's node, handler
and queue, and the head pointer through which the dispatcher reaches them —
exactly as it was. -/
theorem net_protocol_register_dup (st0 : NetState) (T h h' fuel fuel' : Nat)
    (st1 : NetState)
    (hreg : net_protocol_register st0 T h fuel = some (0, st1)) :
    net_protocol_register st1 T h' (fuel' + 1) = some (-1, st1) := by
  unfold net_protocol_register at hreg
  cases hfind : findByType st0.nodes T st0.protocols fuel with
  | none => rw [hfind] at hreg; simp at hreg
  | some b =>
      rw [hfind] at hreg
      cases b with
      | true => simp at hreg
      | false =>
          simp only [Option.some.injEq, Prod.mk.injEq, true_and] at hreg
          subst hreg
          unfold net_protocol_register
          rw [findByType]
          simp [List.get?_concat_length]

/-- Concrete instantiation of net_protocol_register_dup: type 0x0806 registered
once; the duplicate registration fails and the state is untouched. -/
theorem net_protocol_register_dup_witness :
    net_protocol_register (singleProto 2054 7 []) 2054 9 1 = some (-1, singleProto 2054 7 []) :=
  net_protocol_register_dup NetState.empty 2054 7 9 1 0 (singleProto 2054 7 []) (by decide)

/-- Claim C5: arp_resolve fails with the unsupported-type error on a
non-Ethernet device or a non-IP interface family, with a result independent of
the cache (no cache access) and no transmission; otherwise it fails with the
not-found error when no non-FREE entry holds `pa`, again transmitting nothing
(the transmit-call component of arp_resolve is always empty), and returns
FOUND together with the cached hardware address when such an entry exists. -/
theorem arp_resolve_spec (ifc : NetIface) (pa : List Nat) :
    ((ifc.dev.type ≠ NET_DEVICE_TYPE_ETHERNET ∨ ifc.family ≠ NET_IFACE_FAMILY_IP) →
      ∀ cs, arp_resolve ifc pa cs = (ARP_RESOLVE_ERROR, none, [])) ∧
    (ifc.dev.type = NET_DEVICE_TYPE_ETHERNET → ifc.family = NET_IFACE_FAMILY_IP →
      ∀ cs : List ArpCacheEntry,
        ((∀ c ∈ cs, c.state = ARP_CACHE_STATE_FREE ∨ c.pa ≠ pa) →
          arp_resolve ifc pa cs = (ARP_RESOLVE_ERROR, none, [])) ∧
        (∀ i, arp_cache_select cs pa = some i →
          ∃ c, cs.get? i = some c ∧ c.state ≠ ARP_CACHE_STATE_FREE ∧ c.pa = pa ∧
            arp_resolve ifc pa cs = (ARP_RESOLVE_FOUND, some c.ha, []))) := by
  constructor
  · intro hbad cs
    rcases hbad with hb | hb
    · simp [arp_resolve, hb]
    · by_cases ht : ifc.dev.type = NET_DEVICE_TYPE_ETHERNET <;>
        simp [arp_resolve, ht, hb]
  · intro hT hF cs
    constructor
    · intro hnone
      have hsel : arp_cache_select cs pa = none := by
        apply scanIdx_eq_none
        intro c hc
        rcases hnone c hc with hs | hp
        · simp [hs]
        · simp [hp]
      simp [arp_resolve, hT, hF, hsel]
    · intro i hsel
      obtain ⟨c, hget, hpred, -⟩ := scanIdx_spec hsel
      have hpred' : c.state ≠ ARP_CACHE_STATE_FREE ∧ c.pa = pa := by simpa using hpred
      have hget' : cs[i]? = some c := by simpa [List.get?_eq_getElem?] using hget
      exact ⟨c, hget, hpred'.1, hpred'.2, by simp [arp_resolve, hT, hF, hsel, hget']⟩

/-- Concrete instantiation of arp_resolve_spec: a non-Ethernet device, a miss
on an empty cache, and a hit returning the cached hardware address. -/
theorem arp_resolve_spec_witness :
    arp_resolve ⟨⟨0, [], true, 100⟩, 1, []⟩ [10, 0, 0, 1] [] = (ARP_RESOLVE_ERROR, none, []) ∧
    arp_resolve ⟨⟨2, [], true, 100⟩, 1, []⟩ [10, 0, 0, 1] [] = (ARP_RESOLVE_ERROR, none, []) ∧
    arp_resolve ⟨⟨2, [], true, 100⟩, 1, []⟩ [10, 0, 0, 1]
        [⟨2, [10, 0, 0, 1], [7, 7, 7, 7, 7, 7], ⟨1, 0⟩⟩]
      = (ARP_RESOLVE_FOUND, some [7, 7, 7, 7, 7, 7], []) := by
  refine ⟨(arp_resolve_spec ⟨⟨0, [], true, 100⟩, 1, []⟩ [10, 0, 0, 1]).1
      (Or.inl (by decide)) [],
    ((arp_resolve_spec ⟨⟨2, [], true, 100⟩, 1, []⟩ [10, 0, 0, 1]).2 rfl rfl []).1
      (by simp), ?_⟩
  obtain ⟨c, hc, -, -, hres⟩ :=
    ((arp_resolve_spec ⟨⟨2, [], true, 100⟩, 1, []⟩ [10, 0, 0, 1]).2 rfl rfl
      [⟨2, [10, 0, 0, 1], [7, 7, 7, 7, 7, 7], ⟨1, 0⟩⟩]).2 0 rfl
  have hc' : c = ⟨2, [10, 0, 0, 1], [7, 7, 7, 7, 7, 7], ⟨1, 0⟩⟩ := by
    simpa using hc.symm
  subst hc'
  exact hres

/-- Claim C6: arp_cache_update returns not-found (NULL) and changes nothing
when no non-FREE entry holds `pa`; when such an entry exists it is found, its
state becomes RESOLVED and its timestamp `now`, its stored protocol and
hardware addresses are kept, and every other slot is unchanged. -/
theorem arp_cache_update_spec (cs : List ArpCacheEntry) (pa ha : List Nat) (now : Timeval) :
    ((∀ c ∈ cs, c.state = ARP_CACHE_STATE_FREE ∨ c.pa ≠ pa) →
        arp_cache_update cs pa ha now = none) ∧
    ((∃ c ∈ cs, c.state ≠ ARP_CACHE_STATE_FREE ∧ c.pa = pa) →
        (arp_cache_select cs pa).isSome) ∧
    (∀ i, arp_cache_select cs pa = some i →
      ∃ c, cs.get? i = some c ∧ c.state ≠ ARP_CACHE_STATE_FREE ∧ c.pa = pa ∧
        arp_cache_update cs pa ha now
          = some (cs.set i ⟨ARP_CACHE_STATE_RESOLVED, c.pa, c.ha, now⟩) ∧
        (∀ j, j ≠ i → (cs.set i ⟨ARP_CACHE_STATE_RESOLVED, c.pa, c.ha, now⟩).get? j
          = cs.get? j)) := by
  refine ⟨?_, ?_, ?_⟩
  · intro hnone
    have hsel : arp_cache_select cs pa = none := by
      apply scanIdx_eq_none
      intro c hc
      rcases hnone c hc with hs | hp
      · simp [hs]
      · simp [hp]
    simp [arp_cache_update, hsel]
  · intro hex
    obtain ⟨c, hmem, hs, hp⟩ := hex
    exact scanIdx_isSome ⟨c, hmem, by simp [hs, hp]⟩
  · intro i hsel
    obtain ⟨c, hget, hpred, -⟩ := scanIdx_spec hsel
    have hpred' : c.state ≠ ARP_CACHE_STATE_FREE ∧ c.pa = pa := by simpa using hpred
    have hget' : cs[i]? = some c := by simpa [List.get?_eq_getElem?] using hget
    refine ⟨c, hget, hpred'.1, hpred'.2, by simp [arp_cache_update, hsel, hget'], ?_⟩
    intro j hj
    exact List.get?_set_ne _ _ (fun hij => hj hij.symm)

/-- Concrete instantiation of arp_cache_update_spec: a miss changes nothing;
a hit sets state RESOLVED and the new timestamp while keeping the stored
hardware address (the observed ha [8,8,8,8,8,8] is not written). -/
theorem arp_cache_update_spec_witness :
    arp_cache_update [⟨1, [10, 0, 0, 1], [7, 7, 7, 7, 7, 7], ⟨1, 0⟩⟩] [10, 0, 0, 2]
        [8, 8, 8, 8, 8, 8] ⟨9, 9⟩ = none ∧
    arp_cache_update [⟨1, [10, 0, 0, 1], [7, 7, 7, 7, 7, 7], ⟨1, 0⟩⟩] [10, 0, 0, 1]
        [8, 8, 8, 8, 8, 8] ⟨9, 9⟩
      = some [⟨ARP_CACHE_STATE_RESOLVED, [10, 0, 0, 1], [7, 7, 7, 7, 7, 7], ⟨9, 9⟩⟩] := by
  constructor
  · exact (arp_cache_update_spec [⟨1, [10, 0, 0, 1], [7, 7, 7, 7, 7, 7], ⟨1, 0⟩⟩]
      [10, 0, 0, 2] [8, 8, 8, 8, 8, 8] ⟨9, 9⟩).1 (by decide)
  · obtain ⟨c, hc, -, -, hres, -⟩ :=
      (arp_cache_update_spec [⟨1, [10, 0, 0, 1], [7, 7, 7, 7, 7, 7], ⟨1, 0⟩⟩]
        [10, 0, 0, 1] [8, 8, 8, 8, 8, 8] ⟨9, 9⟩).2.2 0 rfl
    have hc' : c = ⟨1, [10, 0, 0, 1], [7, 7, 7, 7, 7, 7], ⟨1, 0⟩⟩ := by
      simpa using hc.symm
    subst hc'
    exact hres

/-- Claim C10: on the 32-slot cache arp_cache_alloc always returns a slot
(never NULL) — when no slot is FREE it deletes and returns an oldest slot — so
the allocation-failure branch of arp_cache_insert is unreachable and insert
always succeeds. -/
theorem arp_cache_alloc_never_fails (cs : List ArpCacheEntry) (pa ha : List Nat)
    (now : Timeval) (hlen : cs.length = ARP_CACHE_SIZE) :
    (arp_cache_alloc cs).isSome ∧ (arp_cache_insert cs pa ha now).isSome := by
  have hne : cs ≠ [] := by
    intro h
    rw [h] at hlen
    simp [ARP_CACHE_SIZE] at hlen
  have halloc : (arp_cache_alloc cs).isSome := by
    unfold arp_cache_alloc
    cases hf : scanIdx (fun c => c.state == ARP_CACHE_STATE_FREE) cs with
    | some i => simp
    | none =>
        cases cs with
        | nil => exact absurd rfl hne
        | cons e rest =>
            rw [oldestGo]
            have hsome := oldestGo_isSome rest 1 (0, e.timestamp)
            cases ho : oldestGo rest 1 (some (0, e.timestamp)) with
            | none => rw [ho] at hsome; simp at hsome
            | some i => simp
  refine ⟨halloc, ?_⟩
  unfold arp_cache_insert
  cases ha2 : arp_cache_alloc cs with
  | none => rw [ha2] at halloc; simp at halloc
  | some pr => simp

/-- Concrete instantiation of arp_cache_alloc_never_fails on an all-FREE
32-slot cache. -/
theorem arp_cache_alloc_never_fails_witness :
    (arp_cache_alloc (List.replicate 32 freeEntry)).isSome ∧
    (arp_cache_insert (List.replicate 32 freeEntry) [10, 0, 0, 1] [1, 2, 3, 4, 5, 6]
      ⟨1, 0⟩).isSome :=
  arp_cache_alloc_never_fails (List.replicate 32 freeEntry) [10, 0, 0, 1]
    [1, 2, 3, 4, 5, 6] ⟨1, 0⟩ (by decide)

/-- Claim C4: on the 32-slot cache, when every slot is non-FREE,
arp_cache_insert evicts exactly the slot with the strictly smallest timestamp
(first slot in scan order winning ties — isFirstOldest) — arp_cache_delete
zeroes it — and fills that slot with state RESOLVED, the new protocol address,
the new hardware address and the fresh timestamp; when some slot is FREE, the
first FREE slot in scan order is filled instead and no slot is evicted (all
other slots are untouched, the state being a single List.set). -/
theorem arp_cache_insert_eviction (cs : List ArpCacheEntry) (pa ha : List Nat)
    (now : Timeval) (hlen : cs.length = ARP_CACHE_SIZE) :
    ((∀ c ∈ cs, c.state ≠ ARP_CACHE_STATE_FREE) →
      ∃ i, isFirstOldest cs i ∧
        arp_cache_insert cs pa ha now
          = some (cs.set i ⟨ARP_CACHE_STATE_RESOLVED, pa, ha, now⟩)) ∧
    ((∃ c ∈ cs, c.state = ARP_CACHE_STATE_FREE) →
      ∃ f, isFirstFree cs f ∧
        arp_cache_insert cs pa ha now
          = some (cs.set f ⟨ARP_CACHE_STATE_RESOLVED, pa, ha, now⟩)) := by
  have hne : cs ≠ [] := by
    intro h
    rw [h] at hlen
    simp [ARP_CACHE_SIZE] at hlen
  constructor
  · intro hfull
    have hfree : scanIdx (fun c => c.state == ARP_CACHE_STATE_FREE) cs = none := by
      apply scanIdx_eq_none
      intro c hc
      simpa using hfull c hc
    have hsome : (oldestGo cs 0 none).isSome := by
      cases cs with
      | nil => exact absurd rfl hne
      | cons e rest =>
          rw [oldestGo]
          exact oldestGo_isSome rest 1 (0, e.timestamp)
    obtain ⟨r, hr⟩ := Option.isSome_iff_exists.mp hsome
    refine ⟨r, oldestGo_firstOldest hne hr, ?_⟩
    unfold arp_cache_insert arp_cache_alloc arp_cache_delete
    rw [hfree, hr]
    simp [List.set_set]
  · intro hex
    obtain ⟨c, hmem, hc⟩ := hex
    have hsome : (scanIdx (fun c => c.state == ARP_CACHE_STATE_FREE) cs).isSome :=
      scanIdx_isSome ⟨c, hmem, by simp [hc]⟩
    obtain ⟨f, hf⟩ := Option.isSome_iff_exists.mp hsome
    obtain ⟨cf, hget, hpf, hmin⟩ := scanIdx_spec hf
    refine ⟨f, ⟨cf, hget, by simpa using hpf, ?_⟩, ?_⟩
    · intro j c' hj hj'
      have := hmin j c' hj hj'
      simpa using this
    · unfold arp_cache_insert arp_cache_alloc
      rw [hf]

/-- Concrete instantiation of arp_cache_insert_eviction: a full 32-slot cache
with pairwise distinct timestamps, and an all-FREE 32-slot cache. -/
theorem arp_cache_insert_eviction_witness :
    (∃ i, isFirstOldest
        ((List.range 32).map
          (fun k => ⟨ARP_CACHE_STATE_RESOLVED, [0, 0, 0, k], [0, 0, 0, 0, 0, k], ⟨k + 1, 0⟩⟩)) i ∧
      arp_cache_insert
        ((List.range 32).map
          (fun k => ⟨ARP_CACHE_STATE_RESOLVED, [0, 0, 0, k], [0, 0, 0, 0, 0, k], ⟨k + 1, 0⟩⟩))
        [9, 9, 9, 9] [9, 9, 9, 9, 9, 9] ⟨40, 0⟩
        = some (((List.range 32).map
            (fun k => ⟨ARP_CACHE_STATE_RESOLVED, [0, 0, 0, k], [0, 0, 0, 0, 0, k], ⟨k + 1, 0⟩⟩)).set i
          ⟨ARP_CACHE_STATE_RESOLVED, [9, 9, 9, 9], [9, 9, 9, 9, 9, 9], ⟨40, 0⟩⟩)) ∧
    (∃ f, isFirstFree (List.replicate 32 freeEntry) f ∧
      arp_cache_insert (List.replicate 32 freeEntry) [9, 9, 9, 9] [9, 9, 9, 9, 9, 9] ⟨40, 0⟩
        = some ((List.replicate 32 freeEntry).set f
          ⟨ARP_CACHE_STATE_RESOLVED, [9, 9, 9, 9], [9, 9, 9, 9, 9, 9], ⟨40, 0⟩⟩)) :=
  ⟨(arp_cache_insert_eviction
      ((List.range 32).map
        (fun k => ⟨ARP_CACHE_STATE_RESOLVED, [0, 0, 0, k], [0, 0, 0, 0, 0, k], ⟨k + 1, 0⟩⟩))
      [9, 9, 9, 9] [9, 9, 9, 9, 9, 9] ⟨40, 0⟩ (by decide)).1 (by decide),
   (arp_cache_insert_eviction (List.replicate 32 freeEntry)
      [9, 9, 9, 9] [9, 9, 9, 9, 9, 9] ⟨40, 0⟩ (by decide)).2 (by decide)⟩

/-! Dispatcher lemmas: behaviour of the traversals on the self-linked node that
net_protocol_register creates. -/

theorem findByType_cycle (T T' h : Nat) (q : List QueueEntry) (hne : T ≠ T') :
    ∀ fuel, findByType [⟨T, some 0, q, h⟩] T' (some 0) fuel = none := by
  intro fuel
  induction fuel with
  | zero => rfl
  | succ n ih =>
      rw [findByType]
      simpa [hne] using ih

theorem softirqLoop_empty_queue (T h : Nat) :
    ∀ fuel, softirqLoop (singleProto T h []) (some 0) fuel
      = ([], false, singleProto T h []) := by
  intro fuel
  induction fuel with
  | zero => rfl
  | succ n ih =>
      rw [softirqLoop]
      simpa [singleProto] using ih

theorem softirqLoop_single (T h : Nat) (q : List QueueEntry) (fuel : Nat) :
    softirqLoop (singleProto T h q) (some 0) (fuel + 1)
      = (q.map (fun e => ⟨h, e.data, e.len, e.dev⟩), false, singleProto T h []) := by
  show ((q.map fun e => ⟨h, e.data, e.len, e.dev⟩)
        ++ (softirqLoop (singleProto T h []) (some 0) fuel).1,
      (softirqLoop (singleProto T h []) (some 0) fuel).2.1,
      (softirqLoop (singleProto T h []) (some 0) fuel).2.2) = _
  rw [softirqLoop_empty_queue T h fuel]
  simp

theorem net_input_handler_single (T h dv : Nat) (q : List QueueEntry) (d : List Nat)
    (fuel : Nat) :
    net_input_handler (singleProto T h q) T d dv (fuel + 1)
      = some (0, singleProto T h (q ++ [⟨dv, d.length, d⟩])) := by
  unfold net_input_handler
  rw [show (singleProto T h q).nodes = [⟨T, some 0, q, h⟩] from rfl,
    show (singleProto T h q).protocols = some 0 from rfl]
  rw [findByType]
  simp [pushEntry, singleProto]

theorem pushFrames_single (T h fuel : Nat) :
    ∀ (frames : List (List Nat × Nat)) (q : List QueueEntry),
    pushFrames T (fuel + 1) (singleProto T h q) frames
      = some (singleProto T h (q ++ framesToEntries frames)) := by
  intro frames
  induction frames with
  | nil => intro q; simp [pushFrames, framesToEntries]
  | cons fd rest ih =>
      intro q
      obtain ⟨d, dv⟩ := fd
      rw [pushFrames, net_input_handler_single]
      have hih := ih (q ++ [⟨dv, d.length, d⟩])
      rw [List.append_assoc] at hih
      simpa [framesToEntries] using hih

/-- Claim C1: with a protocol of type T registered (the state
net_protocol_register builds from the empty registry), every frame fed to
net_input_handler with type T is copied into a fresh entry — carrying the
bytes, the arriving device and the length — appended to that protocol's queue;
and net_softirq_handler, run with any sufficient fuel, invokes the handler
exactly once per frame, in push (FIFO) order, with the copied bytes, the
device reference and the length: the invocation trace is the same for every
fuel ≥ 1, so no frame is ever delivered twice or out of order. -/
theorem input_dispatch_fifo (T h fuel : Nat) (frames : List (List Nat × Nat)) :
    net_protocol_register NetState.empty T h fuel = some (0, singleProto T h []) ∧
    pushFrames T (fuel + 1) (singleProto T h []) frames
      = some (singleProto T h (framesToEntries frames)) ∧
    ∀ f, 1 ≤ f →
      (net_softirq_handler (singleProto T h (framesToEntries frames)) f).1
        = frames.map (fun fd => ⟨h, fd.1, fd.1.length, fd.2⟩) := by
  refine ⟨?_, by simpa using pushFrames_single T h fuel frames [], ?_⟩
  · cases fuel with
    | zero => rfl
    | succ n => rfl
  · intro f hf
    obtain ⟨n, rfl⟩ : ∃ n, f = n + 1 := ⟨f - 1, by omega⟩
    show (softirqLoop (singleProto T h (framesToEntries frames)) (some 0) (n + 1)).1 = _
    rw [softirqLoop_single]
    simp [framesToEntries, List.map_map]

/-- Concrete instantiation of input_dispatch_fifo: two frames of type 0x0806
pushed and delivered in order by a dispatch pass of fuel 1. -/
theorem input_dispatch_fifo_witness :
    pushFrames 2054 1 (singleProto 2054 7 []) [([1, 2], 0), ([3], 1)]
      = some (singleProto 2054 7 [⟨0, 2, [1, 2]⟩, ⟨1, 1, [3]⟩]) ∧
    (net_softirq_handler (singleProto 2054 7 [⟨0, 2, [1, 2]⟩, ⟨1, 1, [3]⟩]) 1).1
      = [⟨7, [1, 2], 2, 0⟩, ⟨7, [3], 1, 1⟩] := by
  have hthm := input_dispatch_fifo 2054 7 0 [([1, 2], 0), ([3], 1)]
  exact ⟨hthm.2.1, hthm.2.2 1 (by decide)⟩

/-- Claim C2 (refuting theorem): net_protocol_register builds, from the empty
registry, the single-protocol state whose node is its own successor
(src/net.c:159 `proto->next = proto;`), and on that state — whatever the
backlog `q` — net_softirq_handler's outer loop never reaches the NULL end
within any number of iterations: the completion flag is false for every fuel,
so the C call never returns, contradicting the claimed termination. -/
theorem net_softirq_handler_never_returns (T h : Nat) (q : List QueueEntry) :
    (∀ fuel, net_protocol_register NetState.empty T h fuel = some (0, singleProto T h [])) ∧
    (∀ fuel, (net_softirq_handler (singleProto T h q) fuel).2.1 = false) := by
  refine ⟨fun fuel => ?_, fun fuel => ?_⟩
  · cases fuel with
    | zero => rfl
    | succ n => rfl
  · cases fuel with
    | zero => rfl
    | succ n =>
        show (softirqLoop (singleProto T h q) (some 0) (n + 1)).2.1 = false
        rw [softirqLoop_single]

/-- Claim C7 (refuting theorem): with the registry empty, net_input_handler on
an unmatched type returns 0 without enqueuing, as claimed; but with one
registered protocol of a different type — the only nonempty registry the code
can build — the type scan chases the self-linked node (src/net.c:159) and
never terminates: the call yields no result at any fuel. -/
theorem net_input_handler_unmatched_diverges (T h T' dv : Nat) (q : List QueueEntry)
    (d : List Nat) (hne : T ≠ T') :
    net_input_handler NetState.empty T' d dv 0 = some (0, NetState.empty) ∧
    ∀ fuel, net_input_handler (singleProto T h q) T' d dv fuel = none := by
  refine ⟨rfl, fun fuel => ?_⟩
  unfold net_input_handler
  rw [show (singleProto T h q).nodes = [⟨T, some 0, q, h⟩] from rfl,
    show (singleProto T h q).protocols = some 0 from rfl,
    findByType_cycle T T' h q hne fuel]

/-- Concrete instantiation of net_input_handler_unmatched_diverges: IP frames
(type 0x0800) fed to a registry holding only ARP (type 0x0806). -/
theorem net_input_handler_unmatched_diverges_witness :
    net_input_handler NetState.empty 2048 [1] 0 0 = some (0, NetState.empty) ∧
    net_input_handler (singleProto 2054 7 []) 2048 [1] 0 1000 = none := by
  have hthm := net_input_handler_unmatched_diverges 2054 7 2048 0 [] [1] (by decide)
  exact ⟨hthm.1, hthm.2 1000⟩

/-- Claim C3: feeding a valid 28-byte ARP REQUEST — Ethernet/IP address types
and lengths, opcode REQUEST — whose target protocol address equals the unicast
address of the receiving device's IP interface into arp_input causes exactly
one driver transmit call: an ETHER_TYPE_ARP frame on the interface's device
(up, with sufficient MTU), whose payload is the ARP message with op = REPLY,
sender fields the interface device's hardware address and the interface's
unicast address, target fields the original sender's hardware and protocol
addresses, the frame being destined (dst) to the original sender's hardware
address; the reply is 28 bytes long. -/
theorem arp_input_request_reply (caches : List ArpCacheEntry) (data : List Nat)
    (ifc : NetIface) (now : Timeval) (driverResult : Int)
    (hlen : data.length = 28)
    (hhrd : arpHrd data = ARP_HRD_ETHER) (hhln : arpHln data = ETHER_ADDR_LEN)
    (hpro : arpPro data = ARP_PRO_IP) (hpln : arpPln data = IP_ADDR_LEN)
    (hop : arpOp data = ARP_OP_REQUEST)
    (huni : ifc.unicast = arpTpa data)
    (hup : ifc.dev.up = true) (hmtu : 28 ≤ ifc.dev.mtu)
    (haddr : ifc.dev.addr.length = ETHER_ADDR_LEN) :
    (arp_input caches data (some ifc) now driverResult).2
      = [⟨ifc.dev, ETHER_TYPE_ARP,
          serializeArp ARP_HRD_ETHER ARP_PRO_IP ETHER_ADDR_LEN IP_ADDR_LEN ARP_OP_REPLY
            ifc.dev.addr ifc.unicast (arpSha data) (arpSpa data),
          28, arpSha data⟩] ∧
    (serializeArp ARP_HRD_ETHER ARP_PRO_IP ETHER_ADDR_LEN IP_ADDR_LEN ARP_OP_REPLY
        ifc.dev.addr ifc.unicast (arpSha data) (arpSpa data)).length = 28 := by
  constructor
  · have hnl : ¬ data.length < 28 := by omega
    have hml : ¬ ifc.dev.mtu < 28 := by omega
    by_cases hd : driverResult = -1 <;>
      simp [arp_input, hnl, hhrd, hhln, hpro, hpln, hop, huni, arp_reply,
        net_device_output, hup, hml, hd]
  · have hsha : (arpSha data).length = 6 := by
      simp [arpSha, fieldAt, hlen]
    have hspa : (arpSpa data).length = 4 := by
      simp [arpSpa, fieldAt, hlen]
    have huni4 : ifc.unicast.length = 4 := by
      rw [huni]
      simp [arpTpa, fieldAt, hlen]
    simp [serializeArp, hton16, haddr, hsha, hspa, huni4, ETHER_ADDR_LEN]

/-- Concrete instantiation of arp_input_request_reply: the spec's round-trip
example — REQUEST with spa 10.0.0.1, sha AA:AA:AA:AA:AA:AA, tpa 10.0.0.2 fed
to an interface owning 10.0.0.2 on an up Ethernet device — produces exactly
one REPLY frame back to the sender. -/
theorem arp_input_request_reply_witness :
    (arp_input (List.replicate 32 freeEntry)
      [0, 1, 8, 0, 6, 4, 0, 1, 170, 170, 170, 170, 170, 170, 10, 0, 0, 1,
        0, 0, 0, 0, 0, 0, 10, 0, 0, 2]
      (some ⟨⟨2, [1, 2, 3, 4, 5, 6], true, 1500⟩, 1, [10, 0, 0, 2]⟩) ⟨100, 0⟩ 0).2
      = [⟨⟨2, [1, 2, 3, 4, 5, 6], true, 1500⟩, ETHER_TYPE_ARP,
          [0, 1, 8, 0, 6, 4, 0, 2, 1, 2, 3, 4, 5, 6, 10, 0, 0, 2,
            170, 170, 170, 170, 170, 170, 10, 0, 0, 1],
          28, [170, 170, 170, 170, 170, 170]⟩] := by
  have h := (arp_input_request_reply (List.replicate 32 freeEntry)
    [0, 1, 8, 0, 6, 4, 0, 1, 170, 170, 170, 170, 170, 170, 10, 0, 0, 1,
      0, 0, 0, 0, 0, 0, 10, 0, 0, 2]
    ⟨⟨2, [1, 2, 3, 4, 5, 6], true, 1500⟩, 1, [10, 0, 0, 2]⟩ ⟨100, 0⟩ 0
    (by decide) (by decide) (by decide) (by decide) (by decide) (by decide)
    (by decide) (by decide) (by decide) (by decide)).1
  simpa using h

end Microps
